import Mathlib

/-
Shallow embedding of the quiz application in src/sample.py.

The Streamlit session-state dictionary is modelled by the explicit record
SessionState; each button branch of take_quiz becomes one transition
function on that record.  The question bank is a list of Question records,
exactly as stored in questions.json.
-/

/-- A question record, as stored in questions.json (fields id, category,
question, choices, answer). -/
structure Question where
  id : Nat
  category : String
  question : String
  choices : List String
  answer : String
deriving DecidableEq, Repr

/-- One recorded answer: the tuple (q_id, selected_choice, correct)
appended to st.session_state["answers"] in take_quiz. -/
structure Submission where
  qid : Nat
  choice : String
  correct : Bool
deriving DecidableEq, Repr

/-- The relevant keys of st.session_state.  quiz_running and last_pool are
Option because the keys may be absent before the first quiz starts;
current_q_index, score and answers are read with defaults 0 / 0 / [] by the
code, so they are plain fields.  start_time is an abstract timestamp. -/
structure SessionState where
  quiz_running : Option Bool
  last_pool : Option (List Nat)
  current_q_index : Nat
  score : Nat
  answers : List Submission
  start_time : Nat
deriving DecidableEq, Repr

/-- quiz_session_reset (sample.py lines 83-86): sets current_q_index to 0,
score to 0 and answers to the empty list; touches nothing else. -/
def quiz_session_reset (s : SessionState) : SessionState :=
  { s with current_q_index := 0, score := 0, answers := [] }

/-- calculate_grade (sample.py lines 88-98): pct is (score / total) * 100
when total > 0, else 0; the grade ladder is tested top-down with inclusive
lower bounds 85 / 70 / 50.  Python float arithmetic is modelled by exact
rational arithmetic. -/
def calculate_grade (score total : Nat) : ℚ × String :=
  let pct : ℚ := if 0 < total then ((score : ℚ) / (total : ℚ)) * 100 else 0
  let grade : String :=
    if 85 ≤ pct then "A"
    else if 70 ≤ pct then "B"
    else if 50 ≤ pct then "C"
    else "D"
  (pct, grade)

/-- generate_id (sample.py lines 74-77): 1 for an empty bank, otherwise the
maximum of the existing ids plus 1. -/
def generate_id (qs : List Question) : Nat :=
  if qs.isEmpty then 1 else ((qs.map Question.id).foldr max 0) + 1

/-- The default question bank written by ensure_files_exist
(sample.py lines 22-44). -/
def default_questions : List Question :=
  [⟨1, "General Knowledge", "What is the capital of France?",
      ["Paris", "London", "Berlin", "Madrid"], "Paris"⟩,
   ⟨2, "Math", "What is 7 * 8?", ["54", "56", "58", "49"], "56"⟩,
   ⟨3, "Science", "Water\x27s chemical formula is?",
      ["H2O", "CO2", "O2", "NaCl"], "H2O"⟩]

/-- The category filter of take_quiz (sample.py lines 126-129): the whole
bank when category is "All", otherwise the records whose category matches. -/
def derive_pool (qs : List Question) (category : String) : List Question :=
  if category = "All" then qs else qs.filter (fun q => q.category == category)

/-- The pool / selection phase of take_quiz with shuffle = false
(sample.py lines 125-138): an empty pool produces a warning and no session
(none); otherwise the selection is the first count elements of the pool. -/
def select_questions (qs : List Question) (category : String) (count : Nat) :
    Option (List Question) :=
  let pool := derive_pool qs category
  if pool.isEmpty then none else some (pool.take count)

/-- The two navigation buttons of take_quiz. -/
inductive Direction where
  | previous
  | next
deriving DecidableEq, Repr

/-- The Previous / Next branches of take_quiz (sample.py lines 156-158 and
175-177): Previous decrements only when the index is positive, Next
increments only when the index is below len(selected_questions) - 1. -/
def advance (selected : List Question) (d : Direction) (s : SessionState) :
    SessionState :=
  match d with
  | Direction.previous =>
      if 0 < s.current_q_index then
        { s with current_q_index := s.current_q_index - 1 }
      else s
  | Direction.next =>
      if s.current_q_index < selected.length - 1 then
        { s with current_q_index := s.current_q_index + 1 }
      else s

/-- What the Submit Answer branch reports to the user. -/
inductive SubmitOutcome where
  | recorded (correct : Bool)
  | alreadyAnswered
  | outOfRange
deriving DecidableEq, Repr

/-- The Submit Answer branch of take_quiz (sample.py lines 160-174): the
current question is selected_questions[current_q_index]; if its id already
appears in answers the call only reports "already answered"; otherwise the
tuple (id, choice, correct) is appended and score is incremented exactly
when the choice equals the stored answer.  The code never raises here, so
an out-of-range index (impossible through the UI) is modelled as a
distinguished outcome with no state change. -/
def submit_answer (selected : List Question) (choice : String)
    (s : SessionState) : SessionState × SubmitOutcome :=
  match selected[s.current_q_index]? with
  | none => (s, SubmitOutcome.outOfRange)
  | some q =>
      let correct : Bool := choice == q.answer
      match s.answers.find? (fun a => a.qid == q.id) with
      | some _ => (s, SubmitOutcome.alreadyAnswered)
      | none =>
          ({ s with
              answers := s.answers ++ [⟨q.id, choice, correct⟩],
              score := if correct then s.score + 1 else s.score },
           SubmitOutcome.recorded correct)

/-- The session-initialisation branch of take_quiz (sample.py lines
141-145): sets quiz_running, stores the selected ids in last_pool, runs
quiz_session_reset and stamps start_time. -/
def start_session (selected : List Question) (t : Nat) (s : SessionState) :
    SessionState :=
  { quiz_session_reset
      { s with
          quiz_running := some true,
          last_pool := some (selected.map Question.id) } with
    start_time := t }

/-- A persisted result record (sample.py lines 188-196). -/
structure ResultRecord where
  timestamp : Nat
  score : Nat
  total : Nat
  pct : ℚ
  grade : String
  category : String
  answers : List Submission
deriving DecidableEq, Repr

/-- The Finish Quiz branch of take_quiz (sample.py lines 182-198): builds
the result record from the current state and sets quiz_running to false;
no other session field is written. -/
def finish (selected : List Question) (category : String) (t : Nat)
    (s : SessionState) : SessionState × ResultRecord :=
  let total := selected.length
  let score := s.score
  let pg := calculate_grade score total
  ({ s with quiz_running := some false },
   { timestamp := t, score := score, total := total, pct := pg.1,
     grade := pg.2, category := category, answers := s.answers })

/-- In-place mutation of the first record with the given id, as done by the
Edit Existing branch (q = next(q for q in qs if q[id] == qid) followed by
field assignments). -/
def update_first (qid : Nat) (f : Question → Question) :
    List Question → List Question
  | [] => []
  | q :: rest =>
      if q.id = qid then f q :: rest else q :: update_first qid f rest

/-- The Edit Existing branch of edit_questions (sample.py lines 304-320):
when the entered answer is not among the new choices the edit is rejected
(an error message, no mutation, no save — Bool false); otherwise the four
fields of the selected record are overwritten and the bank is saved
(Bool true). -/
def edit_question (qs : List Question) (qid : Nat)
    (category question : String) (choices : List String) (answer : String) :
    List Question × Bool :=
  if answer ∈ choices then
    (update_first qid
        (fun q =>
          { q with category := category, question := question,
                   choices := choices, answer := answer }) qs,
     true)
  else
    (qs, false)

/-- A fresh Streamlit session: no quiz keys set yet, numeric defaults. -/
def empty_session : SessionState :=
  { quiz_running := none, last_pool := none, current_q_index := 0,
    score := 0, answers := [], start_time := 0 }

/-- The session states reachable, for a fixed selection, from session
initialisation by any sequence of reset, Submit Answer and Previous / Next
operations. -/
inductive Reachable (selected : List Question) : SessionState → Prop where
  | start (t : Nat) (s : SessionState) :
      Reachable selected (start_session selected t s)
  | reset {s : SessionState} :
      Reachable selected s → Reachable selected (quiz_session_reset s)
  | submit {s : SessionState} (choice : String) :
      Reachable selected s →
      Reachable selected (submit_answer selected choice s).1
  | adv {s : SessionState} (d : Direction) :
      Reachable selected s → Reachable selected (advance selected d s)

/-- The percentage as the spec words it: 100 * score / total, and 0 when
total = 0 (stated from the spec for comparison with calculate_grade). -/
def pct_spec (score total : Nat) : ℚ :=
  if total = 0 then 0 else 100 * (score : ℚ) / (total : ℚ)

/-- The grade ladder as the spec words it: inclusive lower bounds 85 / 70 /
50, evaluated top-down (stated from the spec for comparison with
calculate_grade). -/
def grade_spec (pct : ℚ) : String :=
  if 85 ≤ pct then "A"
  else if 70 ≤ pct then "B"
  else if 50 ≤ pct then "C"
  else "D"

/-! ### Helper lemmas -/

lemma le_foldr_max_of_mem {l : List Nat} {x : Nat} (h : x ∈ l) :
    x ≤ l.foldr max 0 := by
  induction l with
  | nil => cases h
  | cons a t ih =>
    rcases List.mem_cons.mp h with rfl | ht
    · exact le_max_left _ _
    · exact le_trans (ih ht) (le_max_right _ _)

lemma foldr_max_mem {l : List Nat} (h : l ≠ []) : l.foldr max 0 ∈ l := by
  induction l with
  | nil => exact absurd rfl h
  | cons a t ih =>
    rcases eq_or_ne t [] with rfl | ht
    · simp
    · rcases max_choice a (t.foldr max 0) with hm | hm
      · simp only [List.foldr, hm]
        exact List.mem_cons_self _ _
      · simp only [List.foldr, hm]
        exact List.mem_cons_of_mem _ (ih ht)

/-! ### Claim theorems -/

/-- Claim C10: quiz_session_reset sets current_q_index to 0, score to 0 and
the submissions list to empty, and leaves every other session field —
last_pool, quiz_running and start_time — unchanged. -/
theorem quiz_session_reset_frame (s : SessionState) :
    (quiz_session_reset s).current_q_index = 0 ∧
    (quiz_session_reset s).score = 0 ∧
    (quiz_session_reset s).answers = [] ∧
    (quiz_session_reset s).last_pool = s.last_pool ∧
    (quiz_session_reset s).quiz_running = s.quiz_running ∧
    (quiz_session_reset s).start_time = s.start_time :=
  ⟨rfl, rfl, rfl, rfl, rfl, rfl⟩

/-- Claim C3: for 0 ≤ score ≤ total, calculate_grade returns the percentage
100 * score / total (0 when total = 0, never dividing by zero) together
with the grade given by the inclusive lower bounds 85 / 70 / 50 evaluated
top-down. -/
theorem calculate_grade_correct (score total : Nat) (h : score ≤ total) :
    calculate_grade score total =
      (pct_spec score total, grade_spec (pct_spec score total)) := by
  rcases Nat.eq_zero_or_pos total with h0 | h0
  · subst h0
    simp [calculate_grade, pct_spec, grade_spec]
  · have h0' : total ≠ 0 := Nat.pos_iff_ne_zero.mp h0
    have hq : ((score : ℚ) / (total : ℚ)) * 100 =
        100 * (score : ℚ) / (total : ℚ) := by ring
    simp [calculate_grade, pct_spec, grade_spec, h0, h0', hq]

/-- Concrete instance of calculate_grade_correct at score 3, total 4. -/
theorem calculate_grade_correct_witness :
    (3 : Nat) ≤ 4 ∧
    calculate_grade 3 4 = (pct_spec 3 4, grade_spec (pct_spec 3 4)) :=
  ⟨by norm_num, calculate_grade_correct 3 4 (by norm_num)⟩

/-- Claim C7: generate_id returns 1 on the empty bank, and otherwise the
maximum existing id plus 1, which is strictly greater than every existing
id and therefore not present in the bank. -/
theorem generate_id_fresh (qs : List Question) :
    (qs = [] → generate_id qs = 1) ∧
    (qs ≠ [] →
      (∃ q, q ∈ qs ∧ (∀ p ∈ qs, p.id ≤ q.id) ∧
        generate_id qs = q.id + 1) ∧
      (∀ q ∈ qs, q.id < generate_id qs) ∧
      (∀ q ∈ qs, q.id ≠ generate_id qs)) := by
  constructor
  · rintro rfl; rfl
  · intro hne
    have hmapne : qs.map Question.id ≠ [] := by simpa using hne
    have hmem := foldr_max_mem hmapne
    rcases List.mem_map.mp hmem with ⟨q, hq, hqid⟩
    have hid : generate_id qs = (qs.map Question.id).foldr max 0 + 1 := by
      rcases List.exists_cons_of_ne_nil hne with ⟨a, t, rfl⟩
      rfl
    refine ⟨⟨q, hq, ?_, ?_⟩, ?_, ?_⟩
    · intro p hp
      have hle : p.id ≤ (qs.map Question.id).foldr max 0 :=
        le_foldr_max_of_mem (List.mem_map_of_mem _ hp)
      rw [hqid]
      exact hle
    · rw [hid, hqid]
    · intro p hp
      have hle : p.id ≤ (qs.map Question.id).foldr max 0 :=
        le_foldr_max_of_mem (List.mem_map_of_mem _ hp)
      rw [hid]
      omega
    · intro p hp
      have hle : p.id ≤ (qs.map Question.id).foldr max 0 :=
        le_foldr_max_of_mem (List.mem_map_of_mem _ hp)
      rw [hid]
      omega

/-- Concrete instance of generate_id_fresh on the default bank. -/
theorem generate_id_fresh_witness :
    default_questions ≠ [] ∧
    ∀ q ∈ default_questions, q.id < generate_id default_questions :=
  ⟨by decide, ((generate_id_fresh default_questions).2 (by decide)).2.1⟩

/-- Claim C6: from any in-range index, Previous moves the index down by 1
and Next moves it up by 1, except at the respective bound where the
operation leaves the state unchanged; the index therefore always remains
in range. -/
theorem advance_clamped (selected : List Question) (s : SessionState)
    (h : s.current_q_index < selected.length) :
    (∀ d, (advance selected d s).current_q_index < selected.length) ∧
    (0 < s.current_q_index →
      (advance selected Direction.previous s).current_q_index =
        s.current_q_index - 1) ∧
    (s.current_q_index = 0 → advance selected Direction.previous s = s) ∧
    (s.current_q_index < selected.length - 1 →
      (advance selected Direction.next s).current_q_index =
        s.current_q_index + 1) ∧
    (selected.length - 1 ≤ s.current_q_index →
      advance selected Direction.next s = s) := by
  refine ⟨?_, ?_, ?_, ?_, ?_⟩
  · intro d
    cases d <;> simp only [advance] <;> split <;> (try simp) <;> omega
  · intro hpos
    simp [advance, hpos]
  · intro h0
    simp [advance, h0]
  · intro hlt
    simp [advance, hlt]
  · intro hge
    have hnot : ¬ s.current_q_index < selected.length - 1 := by omega
    simp [advance, hnot]

/-- Concrete instance of advance_clamped: Previous at index 0 of the fresh
default-bank session is a no-op. -/
theorem advance_clamped_witness :
    (start_session default_questions 0 empty_session).current_q_index <
      default_questions.length ∧
    advance default_questions Direction.previous
        (start_session default_questions 0 empty_session) =
      start_session default_questions 0 empty_session :=
  ⟨by decide,
   (advance_clamped default_questions
      (start_session default_questions 0 empty_session)
      (by decide)).2.2.1 (by decide)⟩

/-- Claim C5: the pool is the category-matching sub-sequence of the bank
(the whole bank for "All"); an empty pool yields no session; otherwise the
selection is the first count elements of the pool, clamping to the pool
size when count exceeds it. -/
theorem select_questions_spec (qs : List Question) (category : String)
    (count : Nat) :
    (select_questions qs category count = none ↔
      derive_pool qs category = []) ∧
    (derive_pool qs category).Sublist qs ∧
    (∀ q, q ∈ derive_pool qs category ↔
      (q ∈ qs ∧ (category = "All" ∨ q.category = category))) ∧
    (derive_pool qs category ≠ [] →
      select_questions qs category count =
        some ((derive_pool qs category).take count)) ∧
    ((derive_pool qs category).length ≤ count →
      derive_pool qs category ≠ [] →
      select_questions qs category count = some (derive_pool qs category)) ∧
    (∀ sel, select_questions qs category count = some sel →
      sel.length = min count (derive_pool qs category).length) := by
  have hsel : select_questions qs category count =
      if (derive_pool qs category).isEmpty then none
      else some ((derive_pool qs category).take count) := rfl
  refine ⟨?_, ?_, ?_, ?_, ?_, ?_⟩
  · rw [hsel]
    by_cases hp : (derive_pool qs category).isEmpty
    · simp [hp, List.isEmpty_iff.mp hp]
    · simp only [hp, Bool.false_eq_true, if_false]
      simp only [List.isEmpty_iff] at hp
      simp [hp]
  · by_cases hc : category = "All"
    · simp [derive_pool, hc]
    · simp only [derive_pool, hc, if_neg hc]
      exact List.filter_sublist qs
  · intro q
    by_cases hc : category = "All"
    · simp [derive_pool, hc]
    · simp [derive_pool, hc, List.mem_filter]
  · intro hne
    rw [hsel]
    simp [hne]
  · intro hlen hne
    rw [hsel]
    simp [hne, List.take_of_length_le hlen]
  · intro sel hs
    rw [hsel] at hs
    by_cases hp : (derive_pool qs category).isEmpty
    · simp [hp] at hs
    · simp only [hp, Bool.false_eq_true, if_false, Option.some.injEq] at hs
      subst hs
      simp [List.length_take]

/-- Concrete instance of select_questions_spec: the spec scenario where
category "Math" on the default bank yields a pool of one question and a
request of count 5 clamps to that pool. -/
theorem select_questions_spec_witness :
    (derive_pool default_questions "Math").length ≤ 5 ∧
    derive_pool default_questions "Math" ≠ [] ∧
    select_questions default_questions "Math" 5 =
      some (derive_pool default_questions "Math") :=
  ⟨by decide, by decide,
   (select_questions_spec default_questions "Math" 5).2.2.2.2.1
     (by decide) (by decide)⟩

/-- If the current question already has a recorded answer, Submit Answer
returns the state unchanged with the already-answered signal. -/
lemma submit_answer_already {selected : List Question} {s : SessionState}
    {q : Question} (hq : selected[s.current_q_index]? = some q)
    (ha : ∃ a ∈ s.answers, a.qid = q.id) (choice : String) :
    submit_answer selected choice s = (s, SubmitOutcome.alreadyAnswered) := by
  obtain ⟨a, hmem, hqid⟩ := ha
  simp only [submit_answer, hq]
  cases hfind : s.answers.find? (fun b => b.qid == q.id) with
  | none =>
      exfalso
      rw [List.find?_eq_none] at hfind
      exact hfind a hmem (by simp [hqid])
  | some b => rfl

/-- If the current question has no recorded answer yet, Submit Answer
appends the new submission and bumps score exactly on a correct choice. -/
lemma submit_answer_fresh {selected : List Question} {s : SessionState}
    {q : Question} (hq : selected[s.current_q_index]? = some q)
    (hnew : ∀ a ∈ s.answers, a.qid ≠ q.id) (choice : String) :
    submit_answer selected choice s =
      ({ s with
          answers := s.answers ++ [⟨q.id, choice, choice == q.answer⟩],
          score := if choice == q.answer then s.score + 1 else s.score },
       SubmitOutcome.recorded (choice == q.answer)) := by
  have hfind : s.answers.find? (fun b => b.qid == q.id) = none := by
    rw [List.find?_eq_none]
    intro a ha
    simpa using hnew a ha
  simp [submit_answer, hq, hfind]

/-- Claim C1: Submit Answer is idempotent per question.  A call on an
already-answered question (whatever the choice) leaves the state unchanged
and signals already-answered; the first call appends exactly one
submission and increments score precisely when the choice equals the
stored answer; a second call after a first one is therefore a no-op. -/
theorem submit_answer_idempotent (selected : List Question)
    (s : SessionState) (q : Question)
    (hq : selected[s.current_q_index]? = some q) :
    (∀ choice, (∃ a ∈ s.answers, a.qid = q.id) →
      submit_answer selected choice s = (s, SubmitOutcome.alreadyAnswered)) ∧
    (∀ choice, (∀ a ∈ s.answers, a.qid ≠ q.id) →
      (submit_answer selected choice s).1.answers =
        s.answers ++ [⟨q.id, choice, choice == q.answer⟩] ∧
      (submit_answer selected choice s).1.score =
        (if choice == q.answer then s.score + 1 else s.score) ∧
      (submit_answer selected choice s).2 =
        SubmitOutcome.recorded (choice == q.answer)) ∧
    (∀ c1 c2, (∀ a ∈ s.answers, a.qid ≠ q.id) →
      submit_answer selected c2 (submit_answer selected c1 s).1 =
        ((submit_answer selected c1 s).1, SubmitOutcome.alreadyAnswered)) := by
  refine ⟨?_, ?_, ?_⟩
  · intro choice ha
    exact submit_answer_already hq ha choice
  · intro choice hnew
    rw [submit_answer_fresh hq hnew choice]
    exact ⟨rfl, rfl, rfl⟩
  · intro c1 c2 hnew
    rw [submit_answer_fresh hq hnew c1]
    refine submit_answer_already (q := q) ?_ ?_ c2
    · exact hq
    · exact ⟨⟨q.id, c1, c1 == q.answer⟩, by simp, rfl⟩

/-- Concrete instance of submit_answer_idempotent: on the fresh
default-bank session, answering the first question and then submitting a
different choice leaves the state unchanged. -/
theorem submit_answer_idempotent_witness :
    submit_answer default_questions "London"
        (submit_answer default_questions "Paris"
          (start_session default_questions 0 empty_session)).1 =
      ((submit_answer default_questions "Paris"
          (start_session default_questions 0 empty_session)).1,
       SubmitOutcome.alreadyAnswered) :=
  (submit_answer_idempotent default_questions
      (start_session default_questions 0 empty_session)
      ⟨1, "General Knowledge", "What is the capital of France?",
        ["Paris", "London", "Berlin", "Madrid"], "Paris"⟩
      (by decide)).2.2 "Paris" "London" (by decide)

/-- Claim C9 counterexample: submitting the string "Sydney", which is not
among the current question choices, is not an error: the code silently
records it as an ordinary incorrect submission and signals the normal
recorded outcome. -/
theorem submit_contract_violation_counterexample :
    default_questions[(start_session default_questions 0
        empty_session).current_q_index]? =
      some ⟨1, "General Knowledge", "What is the capital of France?",
        ["Paris", "London", "Berlin", "Madrid"], "Paris"⟩ ∧
    "Sydney" ∉ (⟨1, "General Knowledge", "What is the capital of France?",
        ["Paris", "London", "Berlin", "Madrid"], "Paris"⟩ : Question).choices ∧
    (submit_answer default_questions "Sydney"
        (start_session default_questions 0 empty_session)).2 =
      SubmitOutcome.recorded false ∧
    (submit_answer default_questions "Sydney"
        (start_session default_questions 0 empty_session)).1.answers =
      [⟨1, "Sydney", false⟩] := by
  refine ⟨?_, ?_, ?_, ?_⟩ <;> decide

/-- Claim C9 (amended): Submit Answer performs no membership check on the
choice; even a choice outside the current question choice list is recorded
exactly like any other first submission, with is_correct given by string
equality with the stored answer. -/
theorem submit_ignores_choice_membership (selected : List Question)
    (s : SessionState) (q : Question) (choice : String)
    (hq : selected[s.current_q_index]? = some q)
    (_hout : choice ∉ q.choices)
    (hnew : ∀ a ∈ s.answers, a.qid ≠ q.id) :
    submit_answer selected choice s =
      ({ s with
          answers := s.answers ++ [⟨q.id, choice, choice == q.answer⟩],
          score := if choice == q.answer then s.score + 1 else s.score },
       SubmitOutcome.recorded (choice == q.answer)) :=
  submit_answer_fresh hq hnew choice

/-- Concrete instance of submit_ignores_choice_membership with the
out-of-list choice "Sydney" on the fresh default-bank session. -/
theorem submit_ignores_choice_membership_witness :
    submit_answer default_questions "Sydney"
        (start_session default_questions 0 empty_session) =
      ({ start_session default_questions 0 empty_session with
          answers :=
            (start_session default_questions 0 empty_session).answers ++
              [⟨1, "Sydney", "Sydney" == "Paris"⟩],
          score :=
            if "Sydney" == "Paris" then
              (start_session default_questions 0 empty_session).score + 1
            else (start_session default_questions 0 empty_session).score },
       SubmitOutcome.recorded ("Sydney" == "Paris")) :=
  submit_ignores_choice_membership default_questions
    (start_session default_questions 0 empty_session)
    ⟨1, "General Knowledge", "What is the capital of France?",
      ["Paris", "London", "Berlin", "Madrid"], "Paris"⟩
    "Sydney" (by decide) (by decide) (by decide)

/-- A record whose id differs from the edited id is untouched by
update_first. -/
lemma mem_update_first_of_ne (qid : Nat) (f : Question → Question) :
    ∀ (qs : List Question) (q : Question), q ∈ qs → q.id ≠ qid →
      q ∈ update_first qid f qs := by
  intro qs
  induction qs with
  | nil => intro q hq _; cases hq
  | cons a t ih =>
    intro q hq hne
    rcases List.mem_cons.mp hq with rfl | ht
    · simp [update_first, hne]
    · by_cases ha : a.id = qid
      · simp only [update_first, if_pos ha]
        exact List.mem_cons_of_mem _ ht
      · simp only [update_first, if_neg ha]
        exact List.mem_cons_of_mem _ (ih q ht hne)

/-- Claim C8: when the entered answer is not among the new choices the
edit is rejected and the bank — every stored record included — is
returned unchanged and unsaved; the mutation and save happen exactly when
the answer is among the new choices, and even then only the record with
the edited id is touched. -/
theorem edit_question_atomic (qs : List Question) (qid : Nat)
    (category question : String) (choices : List String) (answer : String) :
    (answer ∉ choices →
      edit_question qs qid category question choices answer = (qs, false)) ∧
    ((edit_question qs qid category question choices answer).2 = true ↔
      answer ∈ choices) ∧
    (answer ∈ choices → ∀ q ∈ qs, q.id ≠ qid →
      q ∈ (edit_question qs qid category question choices answer).1) := by
  refine ⟨?_, ?_, ?_⟩
  · intro h
    simp [edit_question, h]
  · by_cases h : answer ∈ choices <;> simp [edit_question, h]
  · intro h q hq hne
    simp only [edit_question, if_pos h]
    exact mem_update_first_of_ne qid _ qs q hq hne

/-- Concrete instance of edit_question_atomic: an edit whose answer is not
among the new choices leaves the default bank untouched and unsaved. -/
theorem edit_question_atomic_witness :
    "Nope" ∉ (["Alpha", "Beta"] : List String) ∧
    edit_question default_questions 1 "Cat" "Q" ["Alpha", "Beta"] "Nope" =
      (default_questions, false) :=
  ⟨by decide,
   (edit_question_atomic default_questions 1 "Cat" "Q" ["Alpha", "Beta"]
      "Nope").1 (by decide)⟩

/-- Claim C4 counterexample: on the default bank at the last question,
after Finish Quiz (quiz_running set to false) a Previous press still moves
current_q_index and a Submit Answer press still appends a submission —
finishing does not block further operations on the unchanged selection. -/
theorem finish_not_inactive_counterexample :
    ((finish default_questions "All" 1
        { quiz_running := some true, last_pool := some [1, 2, 3],
          current_q_index := 2, score := 0, answers := [],
          start_time := 0 }).1).quiz_running = some false ∧
    (advance default_questions Direction.previous
        (finish default_questions "All" 1
          { quiz_running := some true, last_pool := some [1, 2, 3],
            current_q_index := 2, score := 0, answers := [],
            start_time := 0 }).1).current_q_index = 1 ∧
    (submit_answer default_questions "NaCl"
        (finish default_questions "All" 1
          { quiz_running := some true, last_pool := some [1, 2, 3],
            current_q_index := 2, score := 0, answers := [],
            start_time := 0 }).1).1.answers = [⟨3, "NaCl", false⟩] := by
  refine ⟨?_, ?_, ?_⟩ <;> decide

/-- Claim C4 (amended): Finish Quiz only flips quiz_running to false and
leaves every other session field as it was; the flag gates nothing, so
subsequent navigation and submission behave exactly as they would have
before finishing, apart from carrying the false flag along. -/
theorem finish_marks_inactive_only (selected : List Question)
    (category : String) (t : Nat) (s : SessionState) :
    (finish selected category t s).1 = { s with quiz_running := some false } ∧
    (∀ d, advance selected d { s with quiz_running := some false } =
      { advance selected d s with quiz_running := some false }) ∧
    (∀ choice,
      (submit_answer selected choice
          { s with quiz_running := some false }).1 =
        { (submit_answer selected choice s).1 with
            quiz_running := some false } ∧
      (submit_answer selected choice { s with quiz_running := some false }).2 =
        (submit_answer selected choice s).2) := by
  refine ⟨rfl, ?_, ?_⟩
  · intro d
    cases d with
    | previous =>
        by_cases h : 0 < s.current_q_index <;> simp [advance, h]
    | next =>
        by_cases h : s.current_q_index < selected.length - 1 <;>
          simp [advance, h]
  · intro choice
    cases hget : selected[s.current_q_index]? with
    | none => exact ⟨by simp [submit_answer, hget], by simp [submit_answer, hget]⟩
    | some q =>
        cases hfind : s.answers.find? (fun a => a.qid == q.id) with
        | none =>
            exact ⟨by simp [submit_answer, hget, hfind],
                   by simp [submit_answer, hget, hfind]⟩
        | some a =>
            exact ⟨by simp [submit_answer, hget, hfind],
                   by simp [submit_answer, hget, hfind]⟩

/-- Every reachable state has score equal to the number of correct
submissions, pairwise-distinct submitted question ids, and all submitted
ids drawn from the selected questions. -/
lemma reachable_inv {selected : List Question} {s : SessionState}
    (h : Reachable selected s) :
    s.score = (s.answers.filter (fun a => a.correct)).length ∧
    (s.answers.map Submission.qid).Nodup ∧
    (∀ a ∈ s.answers, a.qid ∈ selected.map Question.id) := by
  induction h with
  | start t s0 => simp [start_session, quiz_session_reset]
  | reset hr ih => simp [quiz_session_reset]
  | @submit s choice hr ih =>
    obtain ⟨ihs, ihn, ihsub⟩ := ih
    cases hget : selected[s.current_q_index]? with
    | none =>
      have hid : (submit_answer selected choice s).1 = s := by
        simp [submit_answer, hget]
      rw [hid]
      exact ⟨ihs, ihn, ihsub⟩
    | some q =>
      cases hfind : s.answers.find? (fun a => a.qid == q.id) with
      | some a =>
        have hid : (submit_answer selected choice s).1 = s := by
          simp [submit_answer, hget, hfind]
        rw [hid]
        exact ⟨ihs, ihn, ihsub⟩
      | none =>
        have hnotin : q.id ∉ s.answers.map Submission.qid := by
          rw [List.find?_eq_none] at hfind
          intro hmem
          rcases List.mem_map.mp hmem with ⟨a, ha, haq⟩
          exact hfind a ha (by simp [haq])
        have hsub : (submit_answer selected choice s).1 =
            { s with
                answers := s.answers ++
                  [⟨q.id, choice, choice == q.answer⟩],
                score := if choice == q.answer then s.score + 1
                         else s.score } := by
          simp [submit_answer, hget, hfind]
        refine ⟨?_, ?_, ?_⟩
        · rw [hsub]
          simp only [List.filter_append]
          rcases Bool.eq_false_or_eq_true (choice == q.answer) with hc | hc <;>
            simp [hc, ihs]
        · rw [hsub]
          simp only [List.map_append, List.map_cons, List.map_nil]
          simp [List.nodup_append, ihn, hnotin]
        · rw [hsub]
          intro a ha
          rcases List.mem_append.mp ha with h1 | h2
          · exact ihsub a h1
          · rcases List.mem_singleton.mp h2 with rfl
            exact List.mem_map_of_mem _ (List.getElem?_mem hget)
  | @adv s d hr ih =>
    cases d <;> simp only [advance] <;> split <;> simpa using ih

/-- Claim C2: in every session state reachable by any sequence of reset,
Submit Answer and Previous / Next operations, score equals the number of
recorded submissions marked correct, and the number of recorded
submissions never exceeds the number of selected questions. -/
theorem quiz_session_invariant (selected : List Question)
    (s : SessionState) (h : Reachable selected s) :
    s.score = (s.answers.filter (fun a => a.correct)).length ∧
    s.answers.length ≤ selected.length := by
  obtain ⟨hs, hn, hsub⟩ := reachable_inv h
  refine ⟨hs, ?_⟩
  have hss : (s.answers.map Submission.qid) ⊆ (selected.map Question.id) := by
    intro x hx
    rcases List.mem_map.mp hx with ⟨a, ha, rfl⟩
    exact hsub a ha
  have h1 := (List.subperm_of_subset hn hss).length_le
  simpa using h1

/-- Concrete instance of quiz_session_invariant after one correct answer
on the fresh default-bank session. -/
theorem quiz_session_invariant_witness :
    (submit_answer default_questions "Paris"
        (start_session default_questions 0 empty_session)).1.score =
      (((submit_answer default_questions "Paris"
          (start_session default_questions 0 empty_session)).1.answers).filter
        (fun a => a.correct)).length ∧
    (submit_answer default_questions "Paris"
        (start_session default_questions 0 empty_session)).1.answers.length ≤
      default_questions.length :=
  quiz_session_invariant default_questions _
    (Reachable.submit "Paris" (Reachable.start 0 empty_session))
